import Mathlib

/-!
Shallow embedding of the Apache Ignite ODBC marshalling utilities
(`modules/platforms/cpp/odbc/src/utility.cpp`): fixed-buffer copy with
truncation, the string codec, the decimal codec, and the SQL
string-argument conversion, together with proofs of their round-trip
and contract properties.

The byte-stream reader/writer abstraction and the `Decimal` value type
are external collaborators of that file and are not part of the given
sources; they are modelled here from the specification of their
interfaces.  The wire is modelled as a list of framed units (`Tok`),
since the byte order of multi-byte integers is external to the
specification; 32-bit fields carry their bit pattern as a `Nat` below
`2 ^ 32`.
-/

namespace IgniteUtility

/-- A byte value; the range is tracked where it matters. -/
abbrev Byte := Nat

/-- Modelled from the spec: one framed unit on the wire, as produced by the
writer primitives — a one-byte integer, a 32-bit integer (carried as its bit
pattern), a raw byte array, and the two halves of the length-prefixed string
unit: a length header whose field may carry the absent/null sentinel
(`none`), and the string body. -/
inductive Tok where
  | i8 (v : Byte)
  | i32 (v : Nat)
  | raw (bs : List Byte)
  | sHdr (n : Option Nat)
  | sBody (bs : List Byte)
deriving DecidableEq

/-- An input or output stream: the framed units in wire order. -/
abbrev Stream := List Tok

/-- Modelled from the spec: reader primitive `ReadInt8`. -/
def readInt8 : Stream → Option (Byte × Stream)
  | Tok.i8 v :: rest => some (v, rest)
  | _ => none

/-- Modelled from the spec: reader primitive `ReadInt32`; the returned value
is the 32-bit pattern of the field. -/
def readInt32 : Stream → Option (Nat × Stream)
  | Tok.i32 v :: rest => some (v, rest)
  | _ => none

/-- Modelled from the spec: reader primitive `readRawBytes(count)`
(`BinaryUtils::ReadInt8Array`); a block whose size differs from the
requested count is a framing failure of the underlying reader. -/
def readInt8Array (count : Nat) : Stream → Option (List Byte × Stream)
  | Tok.raw bs :: rest => if bs.length = count then some (bs, rest) else none
  | _ => none

/-- Modelled from the spec: the reader's length-prefixed string primitive in
its length-query form (`reader.ReadString(0, 0)`): it returns the byte
count of the string, with the absent/null sentinel surfacing as 0. -/
def readStrLen : Stream → Option (Nat × Stream)
  | Tok.sHdr n :: rest => some (n.getD 0, rest)
  | _ => none

/-- Modelled from the spec: the reader's string body read
(`reader.ReadString(buf, cap)` with a non-null buffer): it delivers at most
`cap` bytes of the body and leaves the stream past the body. -/
def readStrBody (cap : Nat) : Stream → Option (List Byte × Stream)
  | Tok.sBody bs :: rest => some (bs.take cap, rest)
  | _ => none

/-- Modelled from the spec: writer primitive `WriteInt8`; the argument is
truncated to its one-byte pattern. -/
def writeInt8 (v : Nat) (out : Stream) : Stream := out ++ [Tok.i8 (v % 2 ^ 8)]

/-- Modelled from the spec: writer primitive `WriteInt32`; the argument is
truncated to its 32-bit pattern. -/
def writeInt32 (v : Nat) (out : Stream) : Stream := out ++ [Tok.i32 (v % 2 ^ 32)]

/-- Modelled from the spec: writer primitive `WriteInt8Array`. -/
def writeInt8Array (bs : List Byte) (out : Stream) : Stream := out ++ [Tok.raw bs]

/-- Modelled from the spec: the writer's length-prefixed string primitive
(`writer.WriteString(data, len)`): it emits the length header and the body
as one framed unit. -/
def writeStrPrim (s : List Byte) (out : Stream) : Stream :=
  out ++ [Tok.sHdr (some s.length), Tok.sBody s]

/-- Modelled from the spec: the wire image of the absent/null string value —
the sentinel length header followed by an empty body step. -/
def absentWire : Stream := [Tok.sHdr none, Tok.sBody []]

/-- Modelled from the spec: the `Decimal` value type — scale magnitude,
separate sign, and big-endian magnitude bytes, kept as distinct fields in
memory. -/
structure Decimal where
  scale : Nat
  sign : Bool
  mag : List Byte
deriving DecidableEq

/-- Modelled from the spec: `Decimal::IsNegative`; zero (an all-zero
magnitude) is never negative, so zero is encoded with a clear sign bit. -/
def Decimal.IsNegative (d : Decimal) : Bool := d.sign && d.mag.any (· != 0)

/-- Modelled from the spec: `Decimal::GetScale`, the scale magnitude. -/
def Decimal.GetScale (d : Decimal) : Nat := d.scale

/-- Modelled from the spec: `Decimal::GetLength`, the magnitude byte count. -/
def Decimal.GetLength (d : Decimal) : Nat := d.mag.length

/-- Modelled from the spec: `Decimal::GetMagnitude`, the magnitude bytes. -/
def Decimal.GetMagnitude (d : Decimal) : List Byte := d.mag

/-- Modelled from the spec: the `Decimal(scale, mag, len)` constructor used
on decode: the sign is the top bit (bit 31) of the packed scale field and
the scale magnitude is that field with the top bit masked off. -/
def Decimal.ofWire (rawScale : Nat) (mag : List Byte) : Decimal :=
  { scale := rawScale &&& 0x7FFFFFFF, sign := rawScale.testBit 31, mag := mag }

/-- C model of `std::vector::resize` called with an `int32_t` count: the
count converts to `size_t`, so a pattern with bit 31 set (a negative count)
requests an astronomically large size and is not well-defined. -/
def resizeI32 (n : Nat) : Option (List Byte) :=
  if n < 2 ^ 31 then some (List.replicate n 0) else none

/-- Outcome of a decode operation: success carrying the value and the
remaining stream, a failure of the underlying reader, a fired `assert`, or
an operation that is not well-defined. -/
inductive DecodeResult (α : Type) where
  | ok (v : α) (rest : Stream)
  | streamErr
  | assertFail
  | undef
deriving DecidableEq

/-- The one-byte decimal type tag `IGNITE_TYPE_DECIMAL`. -/
def IGNITE_TYPE_DECIMAL : Byte := 30

/-- `ReadDecimal` (utility.cpp lines 80–99): read the tag byte and assert it
is the decimal tag, read the packed scale field and the magnitude length,
resize the magnitude buffer to that length, read that many raw bytes, and
construct the decimal from the packed scale and the bytes. -/
def ReadDecimal (st : Stream) : DecodeResult Decimal :=
  match readInt8 st with
  | none => .streamErr
  | some (hdr, st1) =>
    if hdr = IGNITE_TYPE_DECIMAL then
      match readInt32 st1 with
      | none => .streamErr
      | some (scale, st2) =>
        match readInt32 st2 with
        | none => .streamErr
        | some (len, st3) =>
          match resizeI32 len with
          | none => .undef
          | some mag0 =>
            match readInt8Array mag0.length st3 with
            | none => .streamErr
            | some (mag, st4) => .ok (Decimal.ofWire scale mag) st4
    else .assertFail

/-- `WriteDecimal` (utility.cpp lines 101–110): write the decimal tag, the
scale with the sign bit folded into bit 31, the magnitude length, and the
raw magnitude bytes. -/
def WriteDecimal (d : Decimal) (out : Stream) : Stream :=
  writeInt8Array d.GetMagnitude
    (writeInt32 d.GetLength
      (writeInt32 (d.GetScale ||| (if d.IsNegative then 0x80000000 else 0))
        (writeInt8 IGNITE_TYPE_DECIMAL out)))

/-- `ReadString` (utility.cpp lines 56–73): query the length; on the
absent/zero sentinel clear the destination and perform a dummy body read
with a one-byte buffer; otherwise resize the destination to the length and
read that many bytes into it.  The result is the destination string's
contents and the remaining stream; the `resize` leaves zero fill beyond the
bytes actually delivered by the body read. -/
def ReadString (st : Stream) : Option (List Byte × Stream) :=
  match readStrLen st with
  | none => none
  | some (strLen, st1) =>
    if strLen = 0 then
      match readStrBody 1 st1 with
      | none => none
      | some (_, st2) => some ([], st2)
    else
      match readStrBody strLen st1 with
      | none => none
      | some (bs, st2) => some (bs ++ List.replicate (strLen - bs.length) 0, st2)

/-- `WriteString` (utility.cpp lines 75–78). -/
def WriteString (s : List Byte) (out : Stream) : Stream := writeStrPrim s out

/-- `CopyStringToBuffer` (utility.cpp lines 43–54).  The buffer is `none`
for a null pointer, otherwise the list of its cells, whose length is the
capacity `buflen`; the result is the buffer after the call paired with the
returned byte count. -/
def CopyStringToBuffer (str : List Byte) (buf : Option (List Byte)) :
    Option (List Byte) × Nat :=
  match buf with
  | none => (none, 0)
  | some cells =>
    if cells.length = 0 then (some cells, 0)
    else
      let bytesToCopy := min str.length (cells.length - 1)
      (some (str.take bytesToCopy ++ [0] ++ cells.drop (bytesToCopy + 1)), bytesToCopy)

/-- `SQL_NTS`, the ODBC sentinel meaning "the argument is null-terminated". -/
def SQL_NTS : Int := -3

/-- C model of `std::string::assign(const char*)`: scan to the first zero
byte; well-defined only when a terminator lies within the accessible
bytes. -/
def assignNts (bs : List Byte) : Option (List Byte) :=
  if 0 ∈ bs then some (bs.takeWhile (· != 0)) else none

/-- C model of `std::string::assign(const char*, size_t)` where the count
comes from an `int32_t`: a negative count converts to a huge `size_t`, and
any count beyond the accessible bytes reads out of bounds; neither is
well-defined. -/
def assignLen (bs : List Byte) (len : Int) : Option (List Byte) :=
  if 0 ≤ len ∧ len.toNat ≤ bs.length then some (bs.take len.toNat) else none

/-- `SqlStringToString` (utility.cpp lines 112–127).  The pointer is `none`
when null, otherwise the accessible bytes it points to. -/
def SqlStringToString (sqlStr : Option (List Byte)) (sqlStrLen : Int) :
    Option (List Byte) :=
  match sqlStr with
  | none => some []
  | some bs =>
    if sqlStrLen = 0 then some []
    else if sqlStrLen = SQL_NTS then assignNts bs
    else assignLen bs sqlStrLen

/-! ### Helper lemmas -/

theorem mask31_eq : (0x7FFFFFFF : Nat) = 2 ^ 31 - 1 := by norm_num

theorem bit31_eq : (0x80000000 : Nat) = 2 ^ 31 := by norm_num

theorem and_mask31_of_lt {a : Nat} (h : a < 2 ^ 31) : a &&& 0x7FFFFFFF = a := by
  apply Nat.eq_of_testBit_eq
  intro i
  rw [Nat.testBit_land, mask31_eq, Nat.testBit_two_pow_sub_one]
  by_cases hi : i < 31
  · simp [hi]
  · have ha : a.testBit i = false :=
      Nat.testBit_eq_false_of_lt
        (lt_of_lt_of_le h (Nat.pow_le_pow_right (by norm_num) (Nat.le_of_not_lt hi)))
    simp [hi, ha]

theorem lor_bit31_and_mask31 {a : Nat} (h : a < 2 ^ 31) :
    (a ||| 0x80000000) &&& 0x7FFFFFFF = a := by
  apply Nat.eq_of_testBit_eq
  intro i
  rw [Nat.testBit_land, Nat.testBit_lor, mask31_eq, Nat.testBit_two_pow_sub_one]
  by_cases hi : i < 31
  · have hp : Nat.testBit 0x80000000 i = false := by
      rw [bit31_eq]
      exact Nat.testBit_two_pow_of_ne (by omega)
    simp [hi, hp]
  · have ha : a.testBit i = false :=
      Nat.testBit_eq_false_of_lt
        (lt_of_lt_of_le h (Nat.pow_le_pow_right (by norm_num) (Nat.le_of_not_lt hi)))
    simp [hi, ha]

theorem testBit31_lor_bit31 (a : Nat) : (a ||| 0x80000000).testBit 31 = true := by
  rw [bit31_eq, Nat.testBit_lor, Nat.testBit_two_pow_self, Bool.or_true]

theorem testBit31_of_lt {a : Nat} (h : a < 2 ^ 31) : a.testBit 31 = false :=
  Nat.testBit_eq_false_of_lt h

theorem lor_bit31_lt {a : Nat} (h : a < 2 ^ 31) : a ||| 0x80000000 < 2 ^ 32 := by
  rw [bit31_eq]
  exact Nat.bitwise_lt (by omega) (by norm_num)

theorem testBit31_bit31lit : Nat.testBit 0x80000000 31 = true := by decide

/-- The packed scale field emitted by `WriteDecimal` fits in 32 bits. -/
theorem scaleField_lt (d : Decimal) (h : d.scale < 2 ^ 31) :
    d.GetScale ||| (if d.IsNegative then 0x80000000 else 0) < 2 ^ 32 := by
  cases hneg : d.IsNegative
  · simpa [Decimal.GetScale] using lt_trans h (by norm_num)
  · exact lor_bit31_lt h

/-- The exact sequence of framed units emitted by `WriteDecimal`. -/
theorem writeDecimal_eq (d : Decimal) (out : Stream) :
    WriteDecimal d out =
      out ++ [Tok.i8 (IGNITE_TYPE_DECIMAL % 2 ^ 8),
              Tok.i32 ((d.GetScale ||| (if d.IsNegative then 0x80000000 else 0)) % 2 ^ 32),
              Tok.i32 (d.GetLength % 2 ^ 32),
              Tok.raw d.GetMagnitude] := by
  simp [WriteDecimal, writeInt8, writeInt32, writeInt8Array]

/-- A successful string body read delivers at most the requested number of
bytes. -/
theorem readStrBody_length_le (cap : Nat) (st : Stream) (bs : List Byte)
    (st2 : Stream) (h : readStrBody cap st = some (bs, st2)) : bs.length ≤ cap := by
  cases st with
  | nil => simp [readStrBody] at h
  | cons t rest =>
    cases t <;> simp [readStrBody] at h
    case sBody bs0 =>
      obtain ⟨h1, _⟩ := h
      subst h1
      simp [List.length_take]

/-! ### Claim theorems -/

/-- C2: for every input stream carrying a decimal, decode splits the 32-bit
scale field by masking: the decoded decimal's sign is bit 31 of the field
read and its scale magnitude is the field with that bit masked off, for
every 32-bit field value, with no signed interpretation of the field. -/
theorem readDecimal_scale_split (s n : Nat) (bs : List Byte) (rest : Stream)
    (h1 : n < 2 ^ 31) (h2 : bs.length = n) :
    ReadDecimal (Tok.i8 IGNITE_TYPE_DECIMAL :: Tok.i32 s :: Tok.i32 n ::
        Tok.raw bs :: rest) =
      .ok ⟨s &&& 0x7FFFFFFF, s.testBit 31, bs⟩ rest := by
  have h1n : n < 2147483648 := by omega
  simp [ReadDecimal, readInt8, readInt32, resizeI32, readInt8Array, h1n, h2,
    Decimal.ofWire]

/-- Witness for the decimal scale-field split at a concrete negative-sign
field. -/
theorem readDecimal_scale_split_at :
    ReadDecimal (Tok.i8 IGNITE_TYPE_DECIMAL :: Tok.i32 0x80000005 :: Tok.i32 1 ::
        Tok.raw [3] :: []) =
      .ok ⟨Nat.land 0x80000005 0x7FFFFFFF, Nat.testBit 0x80000005 31, [3]⟩ [] :=
  readDecimal_scale_split 0x80000005 1 [3] [] (by norm_num) rfl

/-- C3: encode writes exactly, in order, the one-byte decimal tag, a 32-bit
field equal to the scale bitwise-or'd with the sign mask `0x80000000`
exactly when the value is negative, a 32-bit field equal to the magnitude
byte length, and the raw magnitude bytes. -/
theorem writeDecimal_layout (d : Decimal) (out : Stream)
    (h1 : d.scale < 2 ^ 31) (h2 : d.mag.length < 2 ^ 32) :
    WriteDecimal d out =
      out ++ [Tok.i8 IGNITE_TYPE_DECIMAL,
              Tok.i32 (d.GetScale ||| (if d.IsNegative then 0x80000000 else 0)),
              Tok.i32 d.GetLength,
              Tok.raw d.GetMagnitude] := by
  rw [writeDecimal_eq]
  rw [Nat.mod_eq_of_lt (scaleField_lt d h1)]
  rw [show d.GetLength % 2 ^ 32 = d.GetLength from Nat.mod_eq_of_lt h2]
  rfl

/-- Witness for the encoder layout at a concrete negative decimal. -/
theorem writeDecimal_layout_at :
    WriteDecimal ⟨2, true, [48, 57]⟩ [] =
      [] ++ [Tok.i8 IGNITE_TYPE_DECIMAL,
             Tok.i32 (Decimal.GetScale ⟨2, true, [48, 57]⟩ |||
               (if Decimal.IsNegative ⟨2, true, [48, 57]⟩ then 0x80000000 else 0)),
             Tok.i32 (Decimal.GetLength ⟨2, true, [48, 57]⟩),
             Tok.raw (Decimal.GetMagnitude ⟨2, true, [48, 57]⟩)] :=
  writeDecimal_layout ⟨2, true, [48, 57]⟩ [] (by norm_num) (by norm_num)

/-- C6: decode asserts that the tag byte equals the decimal type code: a
differing tag fails the assertion (not a recoverable stream error), and
under the precondition that the tag matches, the assertion branch is
unreachable. -/
theorem readDecimal_tag_contract :
    (∀ (v : Byte) (rest : Stream), v ≠ IGNITE_TYPE_DECIMAL →
        ReadDecimal (Tok.i8 v :: rest) = .assertFail) ∧
    (∀ rest : Stream, ReadDecimal (Tok.i8 IGNITE_TYPE_DECIMAL :: rest) ≠ .assertFail) := by
  constructor
  · intro v rest hv
    simp [ReadDecimal, readInt8, hv]
  · intro rest
    simp only [ReadDecimal, readInt8]
    rw [if_pos trivial]
    cases h1 : readInt32 rest with
    | none => simp
    | some p =>
      obtain ⟨scale, st2⟩ := p
      cases h2 : readInt32 st2 with
      | none => simp [h2]
      | some q =>
        obtain ⟨len, st3⟩ := q
        cases h3 : resizeI32 len with
        | none => simp [h2, h3]
        | some mag0 =>
          cases h4 : readInt8Array mag0.length st3 with
          | none => simp [h2, h3, h4]
          | some r => simp [h2, h3, h4]

/-- Witness for the tag contract: tag 0 trips the assertion, the decimal tag
never does. -/
theorem readDecimal_tag_contract_at :
    ReadDecimal [Tok.i8 0] = .assertFail ∧
    ReadDecimal [Tok.i8 IGNITE_TYPE_DECIMAL] ≠ .assertFail :=
  ⟨readDecimal_tag_contract.1 0 [] (by decide), readDecimal_tag_contract.2 []⟩

/-- C9: decode uses the 32-bit magnitude-length field directly, without
validation, as the size of the magnitude buffer it allocates and reads
into; when the field's bit pattern is a negative `int32` the resize is not
well-defined and the operation does not complete. -/
theorem readDecimal_len_contract :
    (∀ (s n : Nat) (bs : List Byte) (rest : Stream), n < 2 ^ 31 → bs.length = n →
        ∃ d2, ReadDecimal (Tok.i8 IGNITE_TYPE_DECIMAL :: Tok.i32 s :: Tok.i32 n ::
            Tok.raw bs :: rest) = .ok d2 rest ∧ d2.GetLength = n) ∧
    (∀ (s n : Nat) (tail : Stream), 2 ^ 31 ≤ n →
        ReadDecimal (Tok.i8 IGNITE_TYPE_DECIMAL :: Tok.i32 s :: Tok.i32 n :: tail) =
          .undef) := by
  constructor
  · intro s n bs rest h1 h2
    have h1n : n < 2147483648 := by omega
    refine ⟨⟨s &&& 0x7FFFFFFF, s.testBit 31, bs⟩, ?_, ?_⟩
    · simp [ReadDecimal, readInt8, readInt32, resizeI32, readInt8Array, h1n, h2,
        Decimal.ofWire]
    · simpa [Decimal.GetLength] using h2
  · intro s n tail h1
    have h1n : ¬ n < 2147483648 := by omega
    simp [ReadDecimal, readInt8, readInt32, resizeI32, h1n]

/-- Witness for the magnitude-length contract: length 1 is used as the
buffer size, and the pattern `0x80000000` (a negative `int32`) is
ill-defined. -/
theorem readDecimal_len_contract_at :
    (∃ d2, ReadDecimal (Tok.i8 IGNITE_TYPE_DECIMAL :: Tok.i32 5 :: Tok.i32 1 ::
        Tok.raw [3] :: []) = .ok d2 [] ∧ d2.GetLength = 1) ∧
    ReadDecimal (Tok.i8 IGNITE_TYPE_DECIMAL :: Tok.i32 5 :: Tok.i32 0x80000000 :: []) =
      .undef :=
  ⟨readDecimal_len_contract.1 5 1 [3] [] (by norm_num) rfl,
   readDecimal_len_contract.2 5 0x80000000 [] (by norm_num)⟩

/-- C1: for every decimal, decoding the bytes produced by encoding it yields
a decimal with equal scale, equal sign (with zero normalized to
non-negative), and equal magnitude bytes. -/
theorem decimal_roundtrip (d : Decimal) (rest : Stream)
    (h1 : d.scale < 2 ^ 31) (h2 : d.mag.length < 2 ^ 31) :
    ∃ d2, ReadDecimal (WriteDecimal d [] ++ rest) = .ok d2 rest ∧
      d2.GetScale = d.GetScale ∧ d2.sign = d.IsNegative ∧
      d2.GetMagnitude = d.GetMagnitude ∧ d2.IsNegative = d.IsNegative := by
  have hw : WriteDecimal d [] ++ rest =
      Tok.i8 IGNITE_TYPE_DECIMAL ::
        Tok.i32 (d.GetScale ||| (if d.IsNegative then 0x80000000 else 0)) ::
        Tok.i32 d.GetLength :: Tok.raw d.GetMagnitude :: rest := by
    rw [writeDecimal_eq]
    rw [Nat.mod_eq_of_lt (scaleField_lt d h1)]
    rw [show d.GetLength % 2 ^ 32 = d.GetLength from
      Nat.mod_eq_of_lt (lt_trans h2 (by norm_num))]
    rfl
  rw [hw]
  have h2n : d.mag.length < 2147483648 := by omega
  refine ⟨Decimal.ofWire (d.GetScale ||| (if d.IsNegative then 0x80000000 else 0))
    d.GetMagnitude, ?_, ?_, ?_, ?_, ?_⟩
  · simp [ReadDecimal, readInt8, readInt32, resizeI32, readInt8Array,
      Decimal.GetLength, Decimal.GetMagnitude, h2n]
  · cases hneg : d.IsNegative with
    | false =>
      simp [Decimal.ofWire, Decimal.GetScale, hneg, and_mask31_of_lt h1]
    | true =>
      simp [Decimal.ofWire, Decimal.GetScale, hneg, lor_bit31_and_mask31 h1]
  · cases hneg : d.IsNegative with
    | false =>
      simp [Decimal.ofWire, Decimal.GetScale, hneg, testBit31_of_lt h1]
    | true =>
      simp [Decimal.ofWire, Decimal.GetScale, hneg, testBit31_bit31lit]
  · rfl
  · cases hneg : d.IsNegative with
    | false =>
      simp [Decimal.IsNegative, Decimal.ofWire, Decimal.GetScale,
        Decimal.GetMagnitude, hneg, testBit31_of_lt h1]
    | true =>
      have hmag : d.mag.any (· != 0) = true := by
        have hh := hneg
        unfold Decimal.IsNegative at hh
        exact (Bool.and_eq_true _ _ |>.mp hh).2
      simp [Decimal.IsNegative, Decimal.ofWire, Decimal.GetScale,
        Decimal.GetMagnitude, hneg, testBit31_bit31lit, hmag]

/-- Witness for the decimal round trip at a concrete negative decimal. -/
theorem decimal_roundtrip_at :
    ∃ d2, ReadDecimal (WriteDecimal ⟨2, true, [48, 57]⟩ [] ++ []) = .ok d2 [] ∧
      d2.GetScale = Decimal.GetScale ⟨2, true, [48, 57]⟩ ∧
      d2.sign = Decimal.IsNegative ⟨2, true, [48, 57]⟩ ∧
      d2.GetMagnitude = Decimal.GetMagnitude ⟨2, true, [48, 57]⟩ ∧
      d2.IsNegative = Decimal.IsNegative ⟨2, true, [48, 57]⟩ :=
  decimal_roundtrip ⟨2, true, [48, 57]⟩ [] (by norm_num) (by norm_num)

/-- C4: on a stream whose length field carries the absent/null sentinel,
string decode yields the empty string, and the path performs a zero-length
body read (into the one-byte dummy buffer) that advances the stream past
the string's framing. -/
theorem readString_absent (rest : Stream) :
    ReadString (absentWire ++ rest) = some ([], rest) ∧
    readStrBody 1 (Tok.sBody [] :: rest) = some ([], rest) := by
  constructor
  · simp [ReadString, absentWire, readStrLen, readStrBody]
  · simp [readStrBody]

/-- C5: decoding the bytes produced by encoding a string yields that string
back, and every successful decode leaves the destination holding either the
empty string or exactly the number of bytes given by the decoded length
field. -/
theorem string_roundtrip :
    (∀ (s : List Byte) (rest : Stream),
        ReadString (WriteString s [] ++ rest) = some (s, rest)) ∧
    (∀ (st : Stream) (res : List Byte) (st2 : Stream),
        ReadString st = some (res, st2) →
        res = [] ∨ ∃ n st1, readStrLen st = some (n, st1) ∧ res.length = n) := by
  constructor
  · intro s rest
    by_cases hs : s = []
    · subst hs
      simp [ReadString, WriteString, writeStrPrim, readStrLen, readStrBody]
    · have hlen : s.length ≠ 0 := by simpa using hs
      simp [ReadString, WriteString, writeStrPrim, readStrLen, readStrBody, hlen]
  · intro st res st2 h
    cases st with
    | nil => simp [ReadString, readStrLen] at h
    | cons t st1 =>
      cases t with
      | i8 v => simp [ReadString, readStrLen] at h
      | i32 v => simp [ReadString, readStrLen] at h
      | raw bs => simp [ReadString, readStrLen] at h
      | sBody bs => simp [ReadString, readStrLen] at h
      | sHdr n =>
        rw [ReadString] at h
        simp only [readStrLen] at h
        by_cases h0 : n.getD 0 = 0
        · rw [if_pos h0] at h
          cases hb : readStrBody 1 st1 with
          | none => rw [hb] at h; cases h
          | some p =>
            obtain ⟨bs1, st3⟩ := p
            rw [hb] at h
            simp only [Option.some.injEq, Prod.mk.injEq] at h
            exact Or.inl h.1.symm
        · rw [if_neg h0] at h
          cases hb : readStrBody (n.getD 0) st1 with
          | none => rw [hb] at h; cases h
          | some p =>
            obtain ⟨bs1, st3⟩ := p
            rw [hb] at h
            simp only [Option.some.injEq, Prod.mk.injEq] at h
            have hle : bs1.length ≤ n.getD 0 :=
              readStrBody_length_le (n.getD 0) st1 bs1 st3 hb
            refine Or.inr ⟨n.getD 0, st1, rfl, ?_⟩
            rw [← h.1]
            simp only [List.length_append, List.length_replicate]
            omega

/-- Witness for the string round trip and the length law at the concrete
string `[7, 8]`. -/
theorem string_roundtrip_at :
    ReadString (WriteString [7, 8] [] ++ []) = some ([7, 8], []) ∧
    (([7, 8] : List Byte) = [] ∨ ∃ n st1,
        readStrLen [Tok.sHdr (some 2), Tok.sBody [7, 8]] = some (n, st1) ∧
        ([7, 8] : List Byte).length = n) :=
  ⟨string_roundtrip.1 [7, 8] [],
   string_roundtrip.2 [Tok.sHdr (some 2), Tok.sBody [7, 8]] [7, 8] [] (by decide)⟩

/-- C7: the buffer copy writes exactly `min(L, c-1)` source bytes followed
by the zero terminator at index `min(L, c-1)` and returns `min(L, c-1)`
when the capacity `c` is at least one and the buffer is non-null; for a
null buffer or zero capacity it performs no write and returns 0. -/
theorem copyStringToBuffer_contract :
    (∀ str : List Byte, CopyStringToBuffer str none = (none, 0)) ∧
    (∀ (str cells : List Byte), cells.length = 0 →
        CopyStringToBuffer str (some cells) = (some cells, 0)) ∧
    (∀ (str cells : List Byte), 1 ≤ cells.length →
        (CopyStringToBuffer str (some cells)).2 = min str.length (cells.length - 1) ∧
        ∃ cells2, (CopyStringToBuffer str (some cells)).1 = some cells2 ∧
          cells2.take (min str.length (cells.length - 1)) =
            str.take (min str.length (cells.length - 1)) ∧
          cells2[min str.length (cells.length - 1)]? = some 0 ∧
          cells2.length = cells.length) := by
  refine ⟨fun str => rfl, ?_, ?_⟩
  · intro str cells hc
    simp [CopyStringToBuffer, hc]
  · intro str cells hc
    have hc0 : ¬ cells.length = 0 := by omega
    set k := min str.length (cells.length - 1) with hk
    have hkl : k ≤ str.length := by omega
    have htk : (str.take k).length = k := by
      simp [List.length_take]
      omega
    constructor
    · simp [CopyStringToBuffer, hc0, hk]
    · refine ⟨str.take k ++ [0] ++ cells.drop (k + 1), ?_, ?_, ?_, ?_⟩
      · simp [CopyStringToBuffer, hc0, hk]
      · have hTL := List.take_left (str.take k) ([0] ++ cells.drop (k + 1))
        rw [htk] at hTL
        rw [List.append_assoc, hTL]
      · rw [List.append_assoc, List.getElem?_append_right htk.le, htk, Nat.sub_self]
        simp
      · simp only [List.length_append, List.length_drop, List.length_singleton, htk]
        omega

/-- Witness for the buffer-copy contract: copying a five-byte string into a
null buffer, an empty buffer, and a three-cell buffer. -/
theorem copyStringToBuffer_contract_at :
    CopyStringToBuffer [104, 101, 108, 108, 111] none = (none, 0) ∧
    CopyStringToBuffer [104, 101, 108, 108, 111] (some []) = (some [], 0) ∧
    ((CopyStringToBuffer [104, 101, 108, 108, 111] (some [9, 9, 9])).2 =
        min ([104, 101, 108, 108, 111] : List Byte).length
          (([9, 9, 9] : List Byte).length - 1) ∧
      ∃ cells2,
        (CopyStringToBuffer [104, 101, 108, 108, 111] (some [9, 9, 9])).1 =
          some cells2 ∧
        cells2.take (min ([104, 101, 108, 108, 111] : List Byte).length
            (([9, 9, 9] : List Byte).length - 1)) =
          ([104, 101, 108, 108, 111] : List Byte).take
            (min ([104, 101, 108, 108, 111] : List Byte).length
              (([9, 9, 9] : List Byte).length - 1)) ∧
        cells2[min ([104, 101, 108, 108, 111] : List Byte).length
            (([9, 9, 9] : List Byte).length - 1)]? = some 0 ∧
        cells2.length = ([9, 9, 9] : List Byte).length) :=
  ⟨copyStringToBuffer_contract.1 [104, 101, 108, 108, 111],
   copyStringToBuffer_contract.2.1 [104, 101, 108, 108, 111] [] rfl,
   copyStringToBuffer_contract.2.2 [104, 101, 108, 108, 111] [9, 9, 9] (by decide)⟩

/-- C8: the driver-call string-argument conversion yields the empty string
for a null pointer (without scanning) or a zero length, scans to the first
zero byte for the null-terminated sentinel, and otherwise copies exactly
the declared number of bytes with embedded zero bytes preserved. -/
theorem sqlStringToString_contract :
    (∀ len : Int, SqlStringToString none len = some []) ∧
    (∀ bs : List Byte, SqlStringToString (some bs) 0 = some []) ∧
    (∀ bs : List Byte, (0 : Byte) ∈ bs →
        SqlStringToString (some bs) SQL_NTS = some (bs.takeWhile (· != 0))) ∧
    (∀ (bs : List Byte) (len : Int), 0 < len → len.toNat ≤ bs.length →
        SqlStringToString (some bs) len = some (bs.take len.toNat) ∧
        (bs.take len.toNat).length = len.toNat) := by
  refine ⟨fun len => rfl, fun bs => rfl, ?_, ?_⟩
  · intro bs hz
    simp [SqlStringToString, SQL_NTS, assignNts, hz]
  · intro bs len hpos hle
    have h0 : len ≠ 0 := by omega
    have hnts : ¬ len = SQL_NTS := by simp [SQL_NTS]; omega
    constructor
    · simp [SqlStringToString, h0, hnts, assignLen, le_of_lt hpos, hle]
    · simp [List.length_take]
      omega

/-- Witness for the argument-conversion contract: null pointer, zero
length, the `SQL_NTS` scan, and an exact three-byte copy with an embedded
zero byte. -/
theorem sqlStringToString_contract_at :
    SqlStringToString none 7 = some [] ∧
    SqlStringToString (some [97]) 0 = some [] ∧
    SqlStringToString (some [97, 0, 98, 0]) SQL_NTS =
      some (([97, 0, 98, 0] : List Byte).takeWhile (· != 0)) ∧
    (SqlStringToString (some [97, 0, 98]) 3 =
        some (([97, 0, 98] : List Byte).take (Int.toNat 3)) ∧
      (([97, 0, 98] : List Byte).take (Int.toNat 3)).length = Int.toNat 3) :=
  ⟨sqlStringToString_contract.1 7,
   sqlStringToString_contract.2.1 [97],
   sqlStringToString_contract.2.2.1 [97, 0, 98, 0] (by decide),
   sqlStringToString_contract.2.2.2 [97, 0, 98] 3 (by decide) (by decide)⟩

/-- C10: the conversion special-cases only the exact `SQL_NTS` sentinel:
every nonzero length other than the sentinel takes the copy-exactly-length
branch, and for a negative such length that branch is not well-defined. -/
theorem sqlStringToString_len_branch :
    (∀ (bs : List Byte) (len : Int), len ≠ 0 → len ≠ SQL_NTS →
        SqlStringToString (some bs) len = assignLen bs len) ∧
    (∀ (bs : List Byte) (len : Int), len < 0 → len ≠ SQL_NTS →
        SqlStringToString (some bs) len = none) := by
  constructor
  · intro bs len h0 hnts
    simp [SqlStringToString, h0, hnts]
  · intro bs len hneg hnts
    have h0 : len ≠ 0 := by omega
    simp [SqlStringToString, h0, hnts, assignLen]
    omega

/-- Witness for the length-branch contract at the negative length `-1`,
which is not the sentinel. -/
theorem sqlStringToString_len_branch_at :
    SqlStringToString (some [97]) (-1) = assignLen [97] (-1) ∧
    SqlStringToString (some [97]) (-1) = none :=
  ⟨sqlStringToString_len_branch.1 [97] (-1) (by decide) (by decide),
   sqlStringToString_len_branch.2 [97] (-1) (by decide) (by decide)⟩

end IgniteUtility
